import Mathlib

/-!
Verification of the directive-breakdown resolution core
(`src/python/flux_k8s/directivebreakdown.py`).

The Python module is shallowly embedded below: jobspec `resources` lists
become `List Resource`, breakdown dictionaries become structures, Python
exceptions become an `Err` sum type, and functions that mutate `resources`
in place return `Except (Err × List Resource) (List Resource)` so that the
state of the tree at the moment an exception is raised is preserved (the
Python code never rolls mutations back).
-/

/-- A resource-tree entry: a Python dict with a `type` tag, a `count`,
an optional `with` list of child resources and an `exclusive` flag.
Entries that carry no `with` key are modelled with an empty child list. -/
inductive Resource where
  | mk (rtype : String) (count : Nat) (children : List Resource) (exclusive : Bool)

def Resource.rtype : Resource → String
  | .mk t _ _ _ => t

def Resource.count : Resource → Nat
  | .mk _ c _ _ => c

def Resource.children : Resource → List Resource
  | .mk _ _ w _ => w

def Resource.exclusive : Resource → Bool
  | .mk _ _ _ e => e

/-- One line item of a breakdown's `allocationSet`.  The
`percentage_of_total` key is written by the second pass of
`apply_breakdowns` and read by `build_allocation_sets`; Python floats are
modelled as rationals. -/
structure Allocation where
  label : String
  minimumCapacity : Nat
  allocationStrategy : String
  percentage_of_total : ℚ
deriving DecidableEq

/-- A directive-breakdown record: its `kind`, its `status.ready` gate and
its `status.allocationSet`. -/
structure Breakdown where
  kind : String
  ready : Bool
  allocationSet : List Allocation
deriving DecidableEq

/-- A `(namespace, name)` reference to a breakdown held by a workflow. -/
structure BreakdownRef where
  ns : String
  name : String
deriving DecidableEq

/-- A workflow's `status.directiveBreakdowns` reference list. -/
structure Workflow where
  directiveBreakdowns : List BreakdownRef
deriving DecidableEq

/-- The exceptions the Python module can raise, one constructor per raise
site plus the implicit `KeyError`/`IndexError`/`ZeroDivisionError` of dict
indexing, list indexing and division. -/
inductive Err where
  | keyError (key : String)
  | indexError
  | strategyMismatch (label expected actual : String)
  | unknownLabel (label : String)
  | structuralError
  | capacityError (minimum : Nat) (got : Int)
  | notSupported (label : String)
  | noBreakdowns
  | badKind (kind : String)
  | notReady
  | zeroDivision
deriving DecidableEq

def PER_COMPUTE_TYPES : List String := ["xfs", "gfs2", "raw"]

def LUSTRE_TYPES : List String := ["ost", "mdt", "mgt"]

/-- Embeds `_get_nnf_resource`. -/
def get_nnf_resource (capacity : Nat) : Resource :=
  .mk "nnf" 1 [.mk "ssd" capacity [] true] false

/-- Embeds `_apply_alloc_per_compute`: on `[node, nnf]` bump the first child's
count; on a single `node` entry append a fresh nnf entry; any other shape
raises, and an empty list raises `IndexError` at `resources[0]`. -/
def apply_alloc_per_compute (capacity : Nat) (resources : List Resource) :
    Except (Err × List Resource) (List Resource) :=
  match resources with
  | [] => .error (.indexError, resources)
  | [r0] =>
    if r0.rtype = "node" then .ok (resources ++ [get_nnf_resource capacity])
    else .error (.structuralError, resources)
  | [r0, r1] =>
    if r1.rtype = "nnf" then
      match r1.children with
      | [] => .error (.indexError, resources)
      | c0 :: cs =>
        .ok [r0, .mk r1.rtype r1.count
          (.mk c0.rtype (c0.count + capacity) c0.children c0.exclusive :: cs) r1.exclusive]
    else .error (.structuralError, resources)
  | _ => .error (.structuralError, resources)

/-- Embeds `_apply_lustre`: append a `globalnnf` entry wrapping an nnf-shaped
device request. -/
def apply_lustre (capacity : Nat) (resources : List Resource) : List Resource :=
  resources ++ [.mk "globalnnf" 1 [get_nnf_resource capacity] false]

/-- The `expected_alloc_strats` dict; `none` models a key that a lookup
would fail on with `KeyError`. -/
def expected_alloc_strats (label : String) : Option String :=
  if label = "xfs" then some "AllocatePerCompute"
  else if label = "raw" then some "AllocatePerCompute"
  else if label = "gfs2" then some "AllocatePerCompute"
  else if label = "ost" then some "AllocateAcrossServers"
  else if label = "mdt" then some "AllocateSingleServer"
  else if label = "mgt" then some "AllocateSingleServer"
  else none

/-- Embeds `capacity_gb = max(1, allocation["minimumCapacity"] // (1024 ** 3))`. -/
def capacity_gb (minimumCapacity : Nat) : Nat :=
  max 1 (minimumCapacity / 1024 ^ 3)

/-- Embeds `_apply_allocation`.  Note that an unknown label raises `KeyError` at
the `expected_alloc_strats[allocation["label"]]` lookup, so the final
`Unknown label` raise is unreachable. -/
def apply_allocation (a : Allocation) (resources : List Resource) :
    Except (Err × List Resource) (List Resource) :=
  match a with
  | ⟨label, minCap, strat, _⟩ =>
    match expected_alloc_strats label with
    | none => .error (.keyError label, resources)
    | some expected =>
      if strat ≠ expected then
        .error (.strategyMismatch label expected strat, resources)
      else if label ∈ PER_COMPUTE_TYPES then
        apply_alloc_per_compute (capacity_gb minCap) resources
      else if label ∈ LUSTRE_TYPES then
        if label = "mgt" then .ok (apply_lustre (capacity_gb minCap) resources)
        else .ok resources
      else .error (.unknownLabel label, resources)

/-- Embeds `_fetch_breakdowns`, with the cluster API client abstracted to a
lookup function from `(namespace, name)` to the breakdown record.  An
empty reference list raises before any lookup. -/
def fetch_breakdowns (lookup : String → String → Breakdown) (wf : Workflow) :
    Except Err (List Breakdown) :=
  match wf.directiveBreakdowns with
  | [] => .error .noBreakdowns
  | r :: rest => .ok ((r :: rest).map fun b => lookup b.ns b.name)

/-- The inner loop of the first pass of `apply_breakdowns`: apply each
allocation of one breakdown in order, accumulating the per-compute byte
total. -/
def apply_allocs (allocs : List Allocation) (resources : List Resource) (total : Nat) :
    Except (Err × List Resource) (List Resource × Nat) :=
  match allocs with
  | [] => .ok (resources, total)
  | a :: rest =>
    match apply_allocation a resources with
    | .error e => .error e
    | .ok res2 =>
      match a with
      | ⟨label, minCap, _, _⟩ =>
        apply_allocs rest res2
          (if label ∈ PER_COMPUTE_TYPES then total + minCap else total)

/-- The first loop of `apply_breakdowns`: per breakdown, check `kind` and
`ready`, then apply its allocations. -/
def first_pass (bds : List Breakdown) (resources : List Resource) (total : Nat) :
    Except (Err × List Resource) (List Resource × Nat) :=
  match bds with
  | [] => .ok (resources, total)
  | ⟨kind, ready, allocationSet⟩ :: rest =>
    if kind ≠ "DirectiveBreakdown" then .error (.badKind kind, resources)
    else if ready then
      match apply_allocs allocationSet resources total with
      | .error e => .error e
      | .ok (res2, total2) => first_pass rest res2 total2
    else .error (.notReady, resources)

/-- The inner loop of the second pass of `apply_breakdowns`: set
`percentage_of_total = minimumCapacity / per_compute_total` on every
per-compute allocation; Python raises `ZeroDivisionError` when the
divisor is zero. -/
def set_allocs (total : Nat) (allocs : List Allocation) : Except Err (List Allocation) :=
  match allocs with
  | [] => .ok []
  | a :: rest =>
    match a with
    | ⟨label, minCap, strat, pct⟩ =>
      if label ∈ PER_COMPUTE_TYPES then
        if total = 0 then .error .zeroDivision
        else
          match set_allocs total rest with
          | .error e => .error e
          | .ok rest2 =>
            .ok (⟨label, minCap, strat, (minCap : ℚ) / (total : ℚ)⟩ :: rest2)
      else
        match set_allocs total rest with
        | .error e => .error e
        | .ok rest2 => .ok (⟨label, minCap, strat, pct⟩ :: rest2)

/-- The second loop of `apply_breakdowns`. -/
def second_pass (total : Nat) (bds : List Breakdown) : Except Err (List Breakdown) :=
  match bds with
  | [] => .ok []
  | ⟨kind, ready, allocationSet⟩ :: rest =>
    match set_allocs total allocationSet with
    | .error e => .error e
    | .ok allocs2 =>
      match second_pass total rest with
      | .error e => .error e
      | .ok rest2 => .ok (⟨kind, ready, allocs2⟩ :: rest2)

/-- Embeds `apply_breakdowns`: fetch, first pass (mutation and per-compute byte
total), second pass (percentages), returning the annotated breakdown list
together with the final resource tree; an error carries the tree as it
stood when the exception was raised. -/
def apply_breakdowns (lookup : String → String → Breakdown) (wf : Workflow)
    (resources : List Resource) :
    Except (Err × List Resource) (List Breakdown × List Resource) :=
  match fetch_breakdowns lookup wf with
  | .error e => .error (e, resources)
  | .ok bds =>
    match first_pass bds resources 0 with
    | .error e => .error e
    | .ok (res2, total) =>
      match second_pass total bds with
      | .error e => .error (e, res2)
      | .ok bds2 => .ok (bds2, res2)

/-- Python `int()` applied to a rational: truncation toward zero. -/
def pyint (q : ℚ) : Int :=
  q.num.tdiv q.den

/-- Dict lookup in a string-keyed mapping, `KeyError` on a missing key. -/
def lookup_nat (m : List (String × Nat)) (k : String) : Except Err Nat :=
  match m with
  | [] => .error (.keyError k)
  | (k2, v) :: rest => if k2 = k then .ok v else lookup_nat rest k

/-- One element of an output allocation set's `storage` list. -/
structure ServerAlloc where
  allocationCount : Nat
  name : String
deriving DecidableEq

/-- One output entry of `build_allocation_sets`. -/
structure AllocEntry where
  allocationSize : Int
  label : String
  storage : List ServerAlloc
deriving DecidableEq

/-- The inner loop of `build_allocation_sets` for a single allocation:
iterate over the `local_allocations` dict in order. -/
def build_one (a : Allocation) (local_allocations : List (String × Nat))
    (nodes_per_nnf : List (String × Nat)) : Except Err (List AllocEntry) :=
  match local_allocations with
  | [] => .ok []
  | (nnf_name, localBytes) :: rest =>
    match a with
    | ⟨label, minCap, _, pct⟩ =>
      if label ∈ PER_COMPUTE_TYPES then
        match lookup_nat nodes_per_nnf nnf_name with
        | .error e => .error e
        | .ok nodes =>
          if nodes = 0 then .error .zeroDivision
          else
            let alloc_size := pyint ((localBytes : ℚ) * pct / (nodes : ℚ))
            if alloc_size < (minCap : Int) then
              .error (.capacityError minCap alloc_size)
            else
              match build_one a rest nodes_per_nnf with
              | .error e => .error e
              | .ok entries => .ok (⟨alloc_size, label, [⟨nodes, nnf_name⟩]⟩ :: entries)
      else .error (.notSupported label)

/-- Embeds `build_allocation_sets`. -/
def build_allocation_sets (allocation_sets : List Allocation)
    (local_allocations nodes_per_nnf : List (String × Nat)) :
    Except Err (List AllocEntry) :=
  match allocation_sets with
  | [] => .ok []
  | a :: rest =>
    match build_one a local_allocations nodes_per_nnf with
    | .error e => .error e
    | .ok entries =>
      match build_allocation_sets rest local_allocations nodes_per_nnf with
      | .error e => .error e
      | .ok entries2 => .ok (entries ++ entries2)

/-- Sum of `minimumCapacity` over the per-compute allocations of a list,
the value `per_compute_total` accumulates. -/
def perComputeSumAllocs (allocs : List Allocation) : Nat :=
  match allocs with
  | [] => 0
  | ⟨label, minCap, _, _⟩ :: rest =>
    (if label ∈ PER_COMPUTE_TYPES then minCap else 0) + perComputeSumAllocs rest

/-- Sum of `minimumCapacity` over the per-compute allocations of all
breakdowns. -/
def perComputeSum (bds : List Breakdown) : Nat :=
  match bds with
  | [] => 0
  | ⟨_, _, allocationSet⟩ :: rest => perComputeSumAllocs allocationSet + perComputeSum rest

example :
    apply_alloc_per_compute 2 [.mk "node" 4 [] false] =
      .ok [.mk "node" 4 [] false, .mk "nnf" 1 [.mk "ssd" 2 [] true] false] := rfl

example :
    apply_alloc_per_compute 3
        [.mk "node" 4 [] false, .mk "nnf" 1 [.mk "ssd" 2 [] true] false] =
      .ok [.mk "node" 4 [] false, .mk "nnf" 1 [.mk "ssd" 5 [] true] false] := rfl

/-- Python truncation agrees with the floor on nonnegative rationals. -/
theorem pyint_eq_floor (q : ℚ) (h : 0 ≤ q) : pyint q = ⌊q⌋ := by
  unfold pyint
  rw [Rat.floor_def]
  exact Int.tdiv_eq_ediv (Rat.num_nonneg.mpr h) (Int.ofNat_nonneg _)

/-- A label is per-compute exactly when it is xfs, gfs2 or raw. -/
theorem mem_per_compute (l : String) (h : l ∈ PER_COMPUTE_TYPES) :
    l = "xfs" ∨ l = "gfs2" ∨ l = "raw" := by
  simpa [PER_COMPUTE_TYPES] using h

/-- C1: applying per-compute allocations of 2 GiB and then 3 GiB to a tree
holding a single node entry yields exactly the original node entry plus
one nnf entry whose inner ssd count is 5: the second application
increments the existing nnf entry instead of appending another. -/
theorem per_compute_aggregation (l1 l2 : String) (r0 : Resource) (p q : ℚ)
    (h1 : l1 ∈ PER_COMPUTE_TYPES) (h2 : l2 ∈ PER_COMPUTE_TYPES)
    (hr : r0.rtype = "node") :
    (apply_allocation ⟨l1, 2 * 2 ^ 30, "AllocatePerCompute", p⟩ [r0]).bind
      (apply_allocation ⟨l2, 3 * 2 ^ 30, "AllocatePerCompute", q⟩) =
      .ok [r0, .mk "nnf" 1 [.mk "ssd" 5 [] true] false] := by
  obtain ⟨t, c, w, e⟩ := r0
  have ht : t = "node" := hr
  subst ht
  rcases mem_per_compute l1 h1 with h | h | h <;> subst h <;>
    rcases mem_per_compute l2 h2 with h | h | h <;> subst h <;> rfl

/-- Witness for C1 at the spec's concrete input `[{type:node,count:4}]`
with labels xfs and gfs2. -/
theorem per_compute_aggregation_witness :
    "xfs" ∈ PER_COMPUTE_TYPES ∧ "gfs2" ∈ PER_COMPUTE_TYPES ∧
    (Resource.mk "node" 4 [] false).rtype = "node" ∧
    (apply_allocation ⟨"xfs", 2 * 2 ^ 30, "AllocatePerCompute", 0⟩
        [.mk "node" 4 [] false]).bind
      (apply_allocation ⟨"gfs2", 3 * 2 ^ 30, "AllocatePerCompute", 0⟩) =
      .ok [.mk "node" 4 [] false, .mk "nnf" 1 [.mk "ssd" 5 [] true] false] :=
  ⟨by decide, by decide, rfl,
    per_compute_aggregation "xfs" "gfs2" (.mk "node" 4 [] false) 0 0
      (by decide) (by decide) rfl⟩

/-- C3: the capacity written into the tree is
`max 1 (minimumCapacity / 2^30)` GiB for both the per-compute and the mgt
case; 100 bytes convert to 1 GiB, `3 * 2^30` bytes convert to 3 GiB, and
the conversion never yields 0. -/
theorem capacity_conversion :
    (∀ (m n : Nat) (p : ℚ),
      apply_allocation ⟨"xfs", m, "AllocatePerCompute", p⟩ [.mk "node" n [] false] =
        .ok [.mk "node" n [] false, get_nnf_resource (max 1 (m / 2 ^ 30))]) ∧
    (∀ (m : Nat) (p : ℚ) (r : List Resource),
      apply_allocation ⟨"mgt", m, "AllocateSingleServer", p⟩ r =
        .ok (r ++ [.mk "globalnnf" 1 [get_nnf_resource (max 1 (m / 2 ^ 30))] false])) ∧
    capacity_gb 100 = 1 ∧ capacity_gb (3 * 2 ^ 30) = 3 ∧ ∀ m, capacity_gb m ≠ 0 := by
  refine ⟨fun m n p => ?_, fun m p r => ?_, rfl, rfl, fun m => ?_⟩
  · rfl
  · rfl
  · unfold capacity_gb
    have := le_max_left 1 (m / 1024 ^ 3)
    omega

/-- C4: the strategy table maps xfs/raw/gfs2 to AllocatePerCompute, ost
to AllocateAcrossServers and mdt/mgt to AllocateSingleServer, and any
allocation whose strategy differs from its label's mandated strategy
fails with a validation error naming the label, the expected strategy and
the actual strategy, with the resource tree unchanged. -/
theorem strategy_validation :
    (expected_alloc_strats "xfs" = some "AllocatePerCompute" ∧
     expected_alloc_strats "raw" = some "AllocatePerCompute" ∧
     expected_alloc_strats "gfs2" = some "AllocatePerCompute" ∧
     expected_alloc_strats "ost" = some "AllocateAcrossServers" ∧
     expected_alloc_strats "mdt" = some "AllocateSingleServer" ∧
     expected_alloc_strats "mgt" = some "AllocateSingleServer") ∧
    ∀ (a : Allocation) (resources : List Resource) (expected : String),
      expected_alloc_strats a.label = some expected →
      a.allocationStrategy ≠ expected →
      apply_allocation a resources =
        .error (.strategyMismatch a.label expected a.allocationStrategy, resources) := by
  refine ⟨⟨rfl, rfl, rfl, rfl, rfl, rfl⟩, ?_⟩
  intro a resources expected h1 h2
  obtain ⟨label, minCap, strat, pct⟩ := a
  simp only [Allocation.label, Allocation.allocationStrategy] at h1 h2 ⊢
  simp [apply_allocation, h1, h2]

/-- Witness for C4: an xfs allocation declaring AllocateSingleServer. -/
theorem strategy_validation_witness :
    expected_alloc_strats "xfs" = some "AllocatePerCompute" ∧
    ("AllocateSingleServer" : String) ≠ "AllocatePerCompute" ∧
    apply_allocation ⟨"xfs", 0, "AllocateSingleServer", 0⟩ [.mk "node" 1 [] false] =
      .error (.strategyMismatch "xfs" "AllocatePerCompute" "AllocateSingleServer",
        [.mk "node" 1 [] false]) :=
  ⟨rfl, by decide,
    strategy_validation.2 ⟨"xfs", 0, "AllocateSingleServer", 0⟩
      [.mk "node" 1 [] false] "AllocatePerCompute" rfl (by decide)⟩

/-- C6: among the lustre labels only a validated mgt allocation mutates
the tree, appending exactly one globalnnf entry wrapping an nnf-shaped
request sized `capacity_gb` regardless of what the tree already holds (so
never merging into an existing globalnnf entry), while validated ost and
mdt allocations leave the tree exactly unchanged. -/
theorem lustre_mutation :
    (∀ (m : Nat) (p : ℚ) (r : List Resource),
      apply_allocation ⟨"mgt", m, "AllocateSingleServer", p⟩ r =
        .ok (r ++ [.mk "globalnnf" 1 [get_nnf_resource (capacity_gb m)] false])) ∧
    (∀ (m : Nat) (p : ℚ) (r : List Resource),
      apply_allocation ⟨"ost", m, "AllocateAcrossServers", p⟩ r = .ok r) ∧
    (∀ (m : Nat) (p : ℚ) (r : List Resource),
      apply_allocation ⟨"mdt", m, "AllocateSingleServer", p⟩ r = .ok r) :=
  ⟨fun m p r => rfl, fun m p r => rfl, fun m p r => rfl⟩

/-- C7: a workflow with an empty breakdown-reference list fails with the
data error for every possible lookup collaborator (so no fetch can have
been consulted), and the error carries the untouched resource tree. -/
theorem empty_breakdowns_error (lookup : String → String → Breakdown)
    (wf : Workflow) (resources : List Resource)
    (h : wf.directiveBreakdowns = []) :
    apply_breakdowns lookup wf resources = .error (.noBreakdowns, resources) := by
  have hf : fetch_breakdowns lookup wf = .error .noBreakdowns := by
    unfold fetch_breakdowns
    rw [h]
  unfold apply_breakdowns
  rw [hf]

/-- Witness for C7: the empty workflow. -/
theorem empty_breakdowns_error_witness :
    (Workflow.mk []).directiveBreakdowns = [] ∧
    apply_breakdowns (fun _ _ => ⟨"DirectiveBreakdown", true, []⟩) ⟨[]⟩
        [.mk "node" 1 [] false] =
      .error (.noBreakdowns, [.mk "node" 1 [] false]) :=
  ⟨rfl, empty_breakdowns_error _ ⟨[]⟩ _ rfl⟩

/-- C8: applying an allocation with the unknown label "foo" fails with
the `KeyError` of the `expected_alloc_strats` table lookup, the tree
untouched; the module's explicit `Unknown label` raise is not the error
produced, because the table lookup precedes and shadows it. -/
theorem unknown_label_keyerror :
    apply_allocation ⟨"foo", 0, "AllocatePerCompute", 0⟩ [.mk "node" 1 [] false] =
      .error (.keyError "foo", [.mk "node" 1 [] false]) := rfl

/-- C9 counterexample: with an empty `local_allocations` mapping the
builder succeeds on a non-per-compute (ost) allocation instead of
failing with the unsupported-label error. -/
theorem builder_empty_locals_no_error :
    build_allocation_sets [⟨"ost", 0, "AllocateAcrossServers", 0⟩] [] [] = .ok [] := rfl

/-- C9 (amended): whenever `local_allocations` is nonempty, a
non-per-compute allocation makes the builder fail with the
"not currently supported" error, producing no sized output for it. -/
theorem builder_unsupported_label (a : Allocation) (nnf_name : String) (localBytes : Nat)
    (rest nodes_per_nnf : List (String × Nat)) (allocs : List Allocation)
    (h : a.label ∉ PER_COMPUTE_TYPES) :
    build_one a ((nnf_name, localBytes) :: rest) nodes_per_nnf =
      .error (.notSupported a.label) ∧
    build_allocation_sets (a :: allocs) ((nnf_name, localBytes) :: rest) nodes_per_nnf =
      .error (.notSupported a.label) := by
  obtain ⟨label, minCap, strat, pct⟩ := a
  simp only [Allocation.label] at h ⊢
  have hb : build_one ⟨label, minCap, strat, pct⟩ ((nnf_name, localBytes) :: rest)
      nodes_per_nnf = .error (.notSupported label) := by
    unfold build_one
    simp [h]
  refine ⟨hb, ?_⟩
  unfold build_allocation_sets
  rw [hb]

/-- Witness for the amended C9: an ost allocation with one server. -/
theorem builder_unsupported_label_witness :
    ("ost" : String) ∉ PER_COMPUTE_TYPES ∧
    build_allocation_sets [⟨"ost", 0, "AllocateAcrossServers", 0⟩] [("nnfA", 5)] [] =
      .error (.notSupported "ost") :=
  ⟨by decide,
    (builder_unsupported_label ⟨"ost", 0, "AllocateAcrossServers", 0⟩ "nnfA" 5 [] [] []
      (by decide)).2⟩

/-- Lemma: `apply_allocs` adds exactly the per-compute capacity of the processed
allocations to the running total. -/
theorem apply_allocs_total (allocs : List Allocation) :
    ∀ (res res2 : List Resource) (total total2 : Nat),
      apply_allocs allocs res total = .ok (res2, total2) →
      total2 = total + perComputeSumAllocs allocs := by
  induction allocs with
  | nil =>
    intro res res2 total total2 h
    simp only [apply_allocs] at h
    simp only [Except.ok.injEq, Prod.mk.injEq] at h
    simp only [perComputeSumAllocs]
    omega
  | cons a rest ih =>
    intro res res2 total total2 h
    obtain ⟨label, minCap, strat, pct⟩ := a
    simp only [apply_allocs] at h
    split at h
    · simp at h
    · have := ih _ res2 _ total2 h
      simp only [perComputeSumAllocs]
      by_cases hm : label ∈ PER_COMPUTE_TYPES
      · simp only [hm, if_true] at this ⊢
        omega
      · simp only [hm, if_false] at this ⊢
        omega

/-- Lemma: `first_pass` computes exactly the per-compute capacity sum of all
breakdowns as its total. -/
theorem first_pass_total (bds : List Breakdown) :
    ∀ (res res2 : List Resource) (total total2 : Nat),
      first_pass bds res total = .ok (res2, total2) →
      total2 = total + perComputeSum bds := by
  induction bds with
  | nil =>
    intro res res2 total total2 h
    simp only [first_pass] at h
    simp only [Except.ok.injEq, Prod.mk.injEq] at h
    simp only [perComputeSum]
    omega
  | cons bd rest ih =>
    intro res res2 total total2 h
    obtain ⟨kind, ready, aset⟩ := bd
    simp only [first_pass] at h
    split at h
    · simp at h
    · split at h
      · split at h
        · simp at h
        · rename_i res3 total3 heq
          have h1 := apply_allocs_total aset _ _ _ _ heq
          have h2 := ih _ res2 _ total2 h
          simp only [perComputeSum]
          omega
      · simp at h

/-- All per-compute minimum capacities zero means a zero per-compute sum. -/
theorem perComputeSumAllocs_zero (allocs : List Allocation)
    (h : ∀ a ∈ allocs, a.label ∈ PER_COMPUTE_TYPES → a.minimumCapacity = 0) :
    perComputeSumAllocs allocs = 0 := by
  induction allocs with
  | nil => rfl
  | cons a rest ih =>
    obtain ⟨label, minCap, strat, pct⟩ := a
    simp only [perComputeSumAllocs]
    have h0 := h ⟨label, minCap, strat, pct⟩ (List.mem_cons_self _ _)
    simp only [Allocation.label, Allocation.minimumCapacity] at h0
    have hrest := ih fun b hb hbl => h b (List.mem_cons_of_mem _ hb) hbl
    by_cases hm : label ∈ PER_COMPUTE_TYPES
    · simp only [hm, if_true, hrest, h0 hm]
    · simp only [hm, if_false, hrest]

/-- All per-compute minimum capacities zero across all breakdowns means a
zero overall per-compute sum. -/
theorem perComputeSum_zero (bds : List Breakdown)
    (h : ∀ bd ∈ bds, ∀ a ∈ bd.allocationSet,
      a.label ∈ PER_COMPUTE_TYPES → a.minimumCapacity = 0) :
    perComputeSum bds = 0 := by
  induction bds with
  | nil => rfl
  | cons bd rest ih =>
    obtain ⟨kind, ready, aset⟩ := bd
    simp only [perComputeSum]
    have h0 := h ⟨kind, ready, aset⟩ (List.mem_cons_self _ _)
    simp only [Breakdown.allocationSet] at h0
    rw [perComputeSumAllocs_zero aset h0,
      ih fun b hb => h b (List.mem_cons_of_mem _ hb)]

/-- Lemma: `set_allocs` can only raise the division-by-zero error. -/
theorem set_allocs_error (total : Nat) (allocs : List Allocation) :
    ∀ e, set_allocs total allocs = .error e → e = .zeroDivision := by
  induction allocs with
  | nil => intro e h; simp [set_allocs] at h
  | cons a rest ih =>
    intro e h
    obtain ⟨label, minCap, strat, pct⟩ := a
    simp only [set_allocs] at h
    split at h
    · split at h
      · simp only [Except.error.injEq] at h
        exact h.symm
      · split at h
        · rename_i e2 heq
          simp only [Except.error.injEq] at h
          exact h ▸ ih e2 heq
        · simp at h
    · split at h
      · rename_i e2 heq
        simp only [Except.error.injEq] at h
        exact h ▸ ih e2 heq
      · simp at h

/-- With a zero per-compute total and at least one per-compute
allocation, `set_allocs` raises the division-by-zero error. -/
theorem set_allocs_zero (allocs : List Allocation)
    (h : ∃ a ∈ allocs, a.label ∈ PER_COMPUTE_TYPES) :
    set_allocs 0 allocs = .error .zeroDivision := by
  induction allocs with
  | nil => simp at h
  | cons a rest ih =>
    obtain ⟨label, minCap, strat, pct⟩ := a
    by_cases hm : label ∈ PER_COMPUTE_TYPES
    · simp [set_allocs, hm]
    · obtain ⟨b, hb, hbl⟩ := h
      rcases List.mem_cons.mp hb with hb1 | hb2
      · rw [hb1] at hbl
        simp only [Allocation.label] at hbl
        exact absurd hbl hm
      · have := ih ⟨b, hb2, hbl⟩
        simp [set_allocs, hm, this]

/-- With a zero per-compute total and at least one per-compute allocation
in some breakdown, the second pass raises the division-by-zero error. -/
theorem second_pass_zero (bds : List Breakdown)
    (h : ∃ bd ∈ bds, ∃ a ∈ bd.allocationSet, a.label ∈ PER_COMPUTE_TYPES) :
    second_pass 0 bds = .error .zeroDivision := by
  induction bds with
  | nil => simp at h
  | cons bd rest ih =>
    obtain ⟨kind, ready, aset⟩ := bd
    by_cases hm : ∃ a ∈ aset, a.label ∈ PER_COMPUTE_TYPES
    · have := set_allocs_zero aset hm
      simp [second_pass, this]
    · cases hsa : set_allocs 0 aset with
      | error e =>
        rw [set_allocs_error 0 aset e hsa] at hsa
        simp [second_pass, hsa]
      | ok allocs2 =>
        obtain ⟨b, hb, a, ha, hal⟩ := h
        rcases List.mem_cons.mp hb with hb1 | hb2
        · rw [hb1] at ha
          simp only [Breakdown.allocationSet] at ha
          exact absurd ⟨a, ha, hal⟩ hm
        · have := ih ⟨b, hb2, a, ha, hal⟩
          simp [second_pass, hsa, this]

/-- Every per-compute allocation coming out of a successful `set_allocs`
carries `percentage_of_total = minimumCapacity / total`. -/
theorem set_allocs_pct (total : Nat) (allocs : List Allocation) :
    ∀ allocs2, set_allocs total allocs = .ok allocs2 →
      ∀ a ∈ allocs2, a.label ∈ PER_COMPUTE_TYPES →
        a.percentage_of_total = (a.minimumCapacity : ℚ) / (total : ℚ) := by
  induction allocs with
  | nil =>
    intro allocs2 h a ha hal
    simp only [set_allocs, Except.ok.injEq] at h
    rw [← h] at ha
    simp at ha
  | cons a0 rest ih =>
    intro allocs2 h a ha hal
    obtain ⟨label, minCap, strat, pct⟩ := a0
    by_cases hm : label ∈ PER_COMPUTE_TYPES
    · by_cases ht : total = 0
      · simp [set_allocs, hm, ht] at h
      · cases hsr : set_allocs total rest with
        | error e => simp [set_allocs, hm, ht, hsr] at h
        | ok rest2 =>
          simp only [set_allocs, hm, ht, hsr, if_true, if_false, Except.ok.injEq] at h
          rw [← h] at ha
          rcases List.mem_cons.mp ha with ha1 | ha2
          · rw [ha1]
          · exact ih rest2 hsr a ha2 hal
    · cases hsr : set_allocs total rest with
      | error e => simp [set_allocs, hm, hsr] at h
      | ok rest2 =>
        simp only [set_allocs, hm, hsr, if_false, Except.ok.injEq] at h
        rw [← h] at ha
        rcases List.mem_cons.mp ha with ha1 | ha2
        · rw [ha1] at hal
          simp only [Allocation.label] at hal
          exact absurd hal hm
        · exact ih rest2 hsr a ha2 hal

/-- Every per-compute allocation coming out of a successful second pass
carries `percentage_of_total = minimumCapacity / total`. -/
theorem second_pass_pct (total : Nat) (bds : List Breakdown) :
    ∀ bds2, second_pass total bds = .ok bds2 →
      ∀ bd ∈ bds2, ∀ a ∈ bd.allocationSet, a.label ∈ PER_COMPUTE_TYPES →
        a.percentage_of_total = (a.minimumCapacity : ℚ) / (total : ℚ) := by
  induction bds with
  | nil =>
    intro bds2 h bd hbd
    simp only [second_pass, Except.ok.injEq] at h
    rw [← h] at hbd
    simp at hbd
  | cons bd0 rest ih =>
    intro bds2 h bd hbd a ha hal
    obtain ⟨kind, ready, aset⟩ := bd0
    cases hsa : set_allocs total aset with
    | error e => simp [second_pass, hsa] at h
    | ok allocs2 =>
      cases hsr : second_pass total rest with
      | error e => simp [second_pass, hsa, hsr] at h
      | ok rest2 =>
        simp only [second_pass, hsa, hsr, Except.ok.injEq] at h
        rw [← h] at hbd
        rcases List.mem_cons.mp hbd with hb1 | hb2
        · rw [hb1] at ha
          simp only [Breakdown.allocationSet] at ha
          exact set_allocs_pct total aset allocs2 hsa a ha hal
        · exact ih rest2 hsr bd hb2 a ha hal

/-- C2: when breakdown resolution succeeds, the final resource tree is
produced entirely by the first pass together with the per-compute
capacity sum, and the second pass then gives every per-compute allocation
`percentage_of_total = minimumCapacity / sumPerCompute` where
`sumPerCompute` ranges over all per-compute allocations of all fetched
breakdowns. -/
theorem percentage_aggregation (lookup : String → String → Breakdown) (wf : Workflow)
    (resources : List Resource) (bds2 : List Breakdown) (res2 : List Resource)
    (h : apply_breakdowns lookup wf resources = .ok (bds2, res2)) :
    ∃ bds : List Breakdown,
      fetch_breakdowns lookup wf = .ok bds ∧
      first_pass bds resources 0 = .ok (res2, perComputeSum bds) ∧
      second_pass (perComputeSum bds) bds = .ok bds2 ∧
      ∀ bd ∈ bds2, ∀ a ∈ bd.allocationSet, a.label ∈ PER_COMPUTE_TYPES →
        a.percentage_of_total = (a.minimumCapacity : ℚ) / (perComputeSum bds : ℚ) := by
  unfold apply_breakdowns at h
  cases hf : fetch_breakdowns lookup wf with
  | error e => simp only [hf] at h; simp at h
  | ok bds =>
    simp only [hf] at h
    cases hfp : first_pass bds resources 0 with
    | error e => simp only [hfp] at h; simp at h
    | ok pr =>
      obtain ⟨r2, total⟩ := pr
      simp only [hfp] at h
      cases hsp : second_pass total bds with
      | error e => simp only [hsp] at h; simp at h
      | ok b2 =>
        simp only [hsp, Except.ok.injEq, Prod.mk.injEq] at h
        obtain ⟨hb, hr⟩ := h
        subst hb
        subst hr
        have ht : total = perComputeSum bds := by
          have := first_pass_total bds resources r2 0 total hfp
          omega
        refine ⟨bds, rfl, ?_, ?_, ?_⟩
        · rw [← ht]
          exact hfp
        · rw [← ht]
          exact hsp
        · intro bd hbd a ha hal
          rw [← ht]
          exact second_pass_pct total bds b2 hsp bd hbd a ha hal

/-- C10: when every per-compute allocation of the fetched breakdowns has
`minimumCapacity = 0` but at least one per-compute allocation exists, the
per-compute total is zero and resolution fails with the division-by-zero
error of the second pass, the first pass's mutations staying in place. -/
theorem zero_percompute_division (lookup : String → String → Breakdown) (wf : Workflow)
    (resources res2 : List Resource) (bds : List Breakdown) (total : Nat)
    (hf : fetch_breakdowns lookup wf = .ok bds)
    (hzero : ∀ bd ∈ bds, ∀ a ∈ bd.allocationSet,
      a.label ∈ PER_COMPUTE_TYPES → a.minimumCapacity = 0)
    (hex : ∃ bd ∈ bds, ∃ a ∈ bd.allocationSet, a.label ∈ PER_COMPUTE_TYPES)
    (hfp : first_pass bds resources 0 = .ok (res2, total)) :
    apply_breakdowns lookup wf resources = .error (.zeroDivision, res2) := by
  have ht : total = perComputeSum bds := by
    have := first_pass_total bds resources res2 0 total hfp
    omega
  have hsp : second_pass total bds = .error .zeroDivision := by
    rw [ht, perComputeSum_zero bds hzero]
    exact second_pass_zero bds hex
  unfold apply_breakdowns
  simp only [hf, hfp, hsp]

/-- The C2 witness collaborator: one breakdown holding per-compute
allocations of 1 GiB (xfs) and 3 GiB (raw). -/
def c2lookup : String → String → Breakdown :=
  fun _ _ => ⟨"DirectiveBreakdown", true,
    [⟨"xfs", 2 ^ 30, "AllocatePerCompute", 0⟩,
     ⟨"raw", 3 * 2 ^ 30, "AllocatePerCompute", 0⟩]⟩

/-- The C2 witness workflow: one breakdown reference. -/
def c2wf : Workflow := ⟨[⟨"default", "bd0"⟩]⟩

/-- The breakdown list the C2 witness run returns: percentages 1/4 and
3/4. -/
def c2bds2 : List Breakdown :=
  [⟨"DirectiveBreakdown", true,
    [⟨"xfs", 2 ^ 30, "AllocatePerCompute", 1/4⟩,
     ⟨"raw", 3 * 2 ^ 30, "AllocatePerCompute", 3/4⟩]⟩]

/-- The resource tree the C2 witness run returns: the original node entry
plus one nnf entry of 1 + 3 GiB. -/
def c2res2 : List Resource :=
  [.mk "node" 4 [] false, .mk "nnf" 1 [.mk "ssd" 4 [] true] false]

/-- Witness for C2: resolving a 1 GiB and a 3 GiB per-compute allocation
gives percentages 1/4 and 3/4, which sum to 1. -/
theorem percentage_aggregation_witness :
    apply_breakdowns c2lookup c2wf [.mk "node" 4 [] false] = .ok (c2bds2, c2res2) ∧
    (1 : ℚ) / 4 + 3 / 4 = 1 ∧
    ∃ bds : List Breakdown,
      fetch_breakdowns c2lookup c2wf = .ok bds ∧
      first_pass bds [.mk "node" 4 [] false] 0 = .ok (c2res2, perComputeSum bds) ∧
      second_pass (perComputeSum bds) bds = .ok c2bds2 ∧
      ∀ bd ∈ c2bds2, ∀ a ∈ bd.allocationSet, a.label ∈ PER_COMPUTE_TYPES →
        a.percentage_of_total = (a.minimumCapacity : ℚ) / (perComputeSum bds : ℚ) := by
  have hrun : apply_breakdowns c2lookup c2wf [.mk "node" 4 [] false] =
      .ok (c2bds2, c2res2) := by
    norm_num [apply_breakdowns, fetch_breakdowns, first_pass, apply_allocs,
      apply_allocation, expected_alloc_strats, apply_alloc_per_compute, capacity_gb,
      get_nnf_resource, second_pass, set_allocs, PER_COMPUTE_TYPES, LUSTRE_TYPES,
      c2lookup, c2wf, c2bds2, c2res2,
      Resource.rtype, Resource.count, Resource.children, Resource.exclusive]
  exact ⟨hrun, by norm_num,
    percentage_aggregation c2lookup c2wf [.mk "node" 4 [] false] c2bds2 c2res2 hrun⟩

/-- Witness for C10: a single per-compute allocation of 0 bytes resolves
the tree (a 0-byte request still becomes 1 GiB) and then fails with the
division-by-zero error of the second pass. -/
theorem zero_percompute_division_witness :
    apply_breakdowns
        (fun _ _ => ⟨"DirectiveBreakdown", true, [⟨"xfs", 0, "AllocatePerCompute", 0⟩]⟩)
        ⟨[⟨"default", "bd0"⟩]⟩ [.mk "node" 2 [] false] =
      .error (.zeroDivision,
        [.mk "node" 2 [] false, .mk "nnf" 1 [.mk "ssd" 1 [] true] false]) :=
  zero_percompute_division
    (fun _ _ => ⟨"DirectiveBreakdown", true, [⟨"xfs", 0, "AllocatePerCompute", 0⟩]⟩)
    ⟨[⟨"default", "bd0"⟩]⟩ [.mk "node" 2 [] false]
    [.mk "node" 2 [] false, .mk "nnf" 1 [.mk "ssd" 1 [] true] false]
    [⟨"DirectiveBreakdown", true, [⟨"xfs", 0, "AllocatePerCompute", 0⟩]⟩] 0
    rfl
    (by intro bd hbd a ha hal
        rcases List.mem_cons.mp hbd with h1 | h1
        · rw [h1] at ha
          rcases List.mem_cons.mp ha with h2 | h2
          · rw [h2]
          · simp at h2
        · simp at h1)
    ⟨⟨"DirectiveBreakdown", true, [⟨"xfs", 0, "AllocatePerCompute", 0⟩]⟩,
      List.mem_cons_self _ _,
      ⟨"xfs", 0, "AllocatePerCompute", 0⟩, List.mem_cons_self _ _, by decide⟩
    rfl

/-- C5: for a per-compute (allocation, server) pair the builder computes
`size = floor(localAllocations[server] * percentageOfTotal /
nodesPerServer[server])`; it raises the capacity error when
`size < minimumCapacity` and otherwise emits exactly one entry
`{allocationSize, label, storage:[{allocationCount, name}]}` for the pair
before continuing with the remaining servers; concretely, with
localAllocations nnfA=1000, nodesPerServer nnfA=2 and percentage 1/2 the
size is 250, which succeeds against minimumCapacity 200 and fails against
minimumCapacity 300. -/
theorem sizing_builder :
    (∀ (a : Allocation) (nnf_name : String) (localBytes : Nat)
        (rest nodes_per_nnf : List (String × Nat)) (nodes : Nat),
      a.label ∈ PER_COMPUTE_TYPES →
      lookup_nat nodes_per_nnf nnf_name = .ok nodes →
      nodes ≠ 0 →
      0 ≤ a.percentage_of_total →
      (⌊(localBytes : ℚ) * a.percentage_of_total / (nodes : ℚ)⌋ < (a.minimumCapacity : Int) →
        build_one a ((nnf_name, localBytes) :: rest) nodes_per_nnf =
          .error (.capacityError a.minimumCapacity
            ⌊(localBytes : ℚ) * a.percentage_of_total / (nodes : ℚ)⌋)) ∧
      ((a.minimumCapacity : Int) ≤ ⌊(localBytes : ℚ) * a.percentage_of_total / (nodes : ℚ)⌋ →
        ∀ entries, build_one a rest nodes_per_nnf = .ok entries →
          build_one a ((nnf_name, localBytes) :: rest) nodes_per_nnf =
            .ok (⟨⌊(localBytes : ℚ) * a.percentage_of_total / (nodes : ℚ)⌋, a.label,
              [⟨nodes, nnf_name⟩]⟩ :: entries))) ∧
    build_allocation_sets [⟨"xfs", 200, "AllocatePerCompute", 1/2⟩]
      [("nnfA", 1000)] [("nnfA", 2)] = .ok [⟨250, "xfs", [⟨2, "nnfA"⟩]⟩] ∧
    build_allocation_sets [⟨"xfs", 300, "AllocatePerCompute", 1/2⟩]
      [("nnfA", 1000)] [("nnfA", 2)] = .error (.capacityError 300 250) := by
  refine ⟨?_, ?_, ?_⟩
  · intro a nnf_name localBytes rest nodes_per_nnf nodes hl hn hnz hp
    obtain ⟨label, minCap, strat, pct⟩ := a
    simp only [Allocation.label, Allocation.minimumCapacity,
      Allocation.percentage_of_total] at hl hp ⊢
    have hq : (0 : ℚ) ≤ (localBytes : ℚ) * pct / (nodes : ℚ) :=
      div_nonneg (mul_nonneg (Nat.cast_nonneg _) hp) (Nat.cast_nonneg _)
    have hfl := pyint_eq_floor _ hq
    constructor
    · intro hlt
      simp only [build_one, hl, if_true, hn, hnz, if_false, hfl]
      rw [if_pos hlt]
    · intro hge entries hrest
      simp only [build_one, hl, if_true, hn, hnz, if_false, hfl]
      rw [if_neg (not_lt.mpr hge)]
      simp only [hrest]
  · norm_num [build_allocation_sets, build_one, lookup_nat, pyint, PER_COMPUTE_TYPES,
      Rat.num_ofNat, Rat.den_ofNat, Int.tdiv]
  · norm_num [build_allocation_sets, build_one, lookup_nat, pyint, PER_COMPUTE_TYPES,
      Rat.num_ofNat, Rat.den_ofNat, Int.tdiv]

/-- The C5 witness allocation: xfs, 200 bytes minimum, percentage 1/2. -/
def c5a : Allocation := ⟨"xfs", 200, "AllocatePerCompute", 1/2⟩

/-- Witness for C5: the nnfA pair with 1000 local bytes over 2 nodes
yields one entry of size `floor(1000 * (1/2) / 2)` for minimum 200. -/
theorem sizing_builder_witness :
    c5a.label ∈ PER_COMPUTE_TYPES ∧
    lookup_nat [("nnfA", 2)] "nnfA" = .ok 2 ∧
    (2 : Nat) ≠ 0 ∧
    (0 : ℚ) ≤ c5a.percentage_of_total ∧
    (c5a.minimumCapacity : Int) ≤
      ⌊((1000 : Nat) : ℚ) * c5a.percentage_of_total / ((2 : Nat) : ℚ)⌋ ∧
    build_one c5a [("nnfA", 1000)] [("nnfA", 2)] =
      .ok [⟨⌊((1000 : Nat) : ℚ) * c5a.percentage_of_total / ((2 : Nat) : ℚ)⌋, c5a.label,
        [⟨2, "nnfA"⟩]⟩] := by
  have h5 : (c5a.minimumCapacity : Int) ≤
      ⌊((1000 : Nat) : ℚ) * c5a.percentage_of_total / ((2 : Nat) : ℚ)⌋ := by
    norm_num [c5a]
  refine ⟨by decide, rfl, by decide, by norm_num [c5a], h5, ?_⟩
  exact (sizing_builder.1 c5a "nnfA" 1000 [] [("nnfA", 2)] 2
    (by decide) rfl (by decide) (by norm_num [c5a])).2 h5 [] rfl
